import Mathlib

/-!
Verification development for the xmarks bookmark-enrichment server.

The TypeScript sources are shallowly embedded: pure functions become Lean
functions; external effects (fetch, URL parsing, Readability, Turndown,
yt-dlp, ffmpeg, the OpenAI client, the filesystem) are passed in as explicit
environments, and thrown JavaScript exceptions are modelled with `Except`.
A top-level try/catch becomes a `match` on the `Except` value.
-/

namespace XMarks

/-! ## JavaScript string primitives

The JS string methods used by the sources (`trim`, `includes`, `endsWith`,
`toLowerCase`, `slice`, single-character global `replace`, `split`) are
given list-based executable definitions so that concrete runs reduce in
the kernel. -/

/-- JS `String.prototype.trim`: strip leading and trailing whitespace. -/
def jsTrim (s : String) : String :=
  String.mk (((s.toList.dropWhile Char.isWhitespace).reverse.dropWhile
    Char.isWhitespace).reverse)

/-- JS `String.prototype.toLowerCase` (ASCII range, which covers the
hostnames and paths compared here). -/
def jsToLower (s : String) : String :=
  String.mk (s.toList.map Char.toLower)

/-- Whether `needle` occurs inside `hay` (JS `String.prototype.includes`). -/
def containsSub : List Char → List Char → Bool
  | [], needle => needle.isEmpty
  | c :: rest, needle => needle.isPrefixOf (c :: rest) || containsSub rest needle

/-- JS `s.includes(sub)`. -/
def jsIncludes (s sub : String) : Bool :=
  containsSub s.toList sub.toList

/-- JS `s.endsWith(suffix)`. -/
def jsEndsWith (s suffixStr : String) : Bool :=
  suffixStr.toList.isSuffixOf s.toList

/-- JS `s.slice(0, n)`. -/
def jsSlice (s : String) (n : Nat) : String :=
  String.mk (s.toList.take n)

/-- A global single-character replace, JS `s.replace(/c/g, rep)`. -/
def replaceChar (c : Char) (rep : String) (s : String) : String :=
  String.mk (s.toList.flatMap (fun x => if x = c then rep.toList else [x]))

/-- Split a character list at every occurrence of a separator character
(JS `s.split(sep)` for a one-character separator). -/
def splitOnChar (c : Char) : List Char → List (List Char)
  | [] => [[]]
  | x :: xs =>
    if x = c then [] :: splitOnChar c xs
    else
      match splitOnChar c xs with
      | [] => [[x]]
      | y :: ys => (x :: y) :: ys

/-! ## Article classifier and extractor (src/lib/articleExtractor.ts) -/

/-- Result of the WHATWG `new URL(...)` parse: hostname and pathname.
The parser itself is external (`new URL` in Node); it is supplied as an
environment function returning `none` where the real parser throws. -/
structure UrlParts where
  hostname : String
  pathname : String
deriving Repr, DecidableEq

/-- Hosts skipped by `isLikelyArticle` (social media, image and video hosts),
verbatim from the `skipHosts` array. -/
def skipHosts : List String :=
  ["x.com", "twitter.com", "pic.twitter.com",
   "youtube.com", "youtu.be", "tiktok.com",
   "instagram.com", "facebook.com",
   "pbs.twimg.com", "video.twimg.com",
   "giphy.com", "imgur.com"]

/-- Media file extensions skipped by `isLikelyArticle`, verbatim from the
`mediaExtensions` array. -/
def mediaExtensions : List String :=
  [".jpg", ".jpeg", ".png", ".gif", ".webp", ".mp4", ".webm", ".svg"]

/-- The body of `isLikelyArticle` after `new URL(url)` succeeded: lowercase
the hostname and pathname, reject skip-listed hosts (substring match) and
direct media-file URLs (suffix match), accept everything else. -/
def isLikelyArticleCore (parts : UrlParts) : Bool :=
  let host := jsToLower parts.hostname
  let path := jsToLower parts.pathname
  if skipHosts.any (fun h => jsIncludes host h) then false
  else if mediaExtensions.any (fun ext => jsEndsWith path ext) then false
  else true

/-- The function `isLikelyArticle(url)`. Its first statement is
`new URL(url)`, which throws on a string the WHATWG parser rejects; the
exception is modelled as `Except.error ()`. `parse` is the external parser. -/
def isLikelyArticleE (parse : String → Option UrlParts) (url : String) :
    Except Unit Bool :=
  match parse url with
  | none => Except.error ()
  | some parts => Except.ok (isLikelyArticleCore parts)

/-- An HTTP response as consumed by `extractArticle`: the `content-type`
header (`''` when the header is absent, matching `|| ''`) and the body. -/
structure FetchResponse where
  contentType : String
  body : String
deriving Repr, DecidableEq

/-- What `new JSDOM(html); new Readability(document).parse()` yields when it
does not throw and does not return null: the raw fields read by
`extractArticle`. Nullable/empty JS fields are modelled as `""` (both are
falsy under the `||` checks that consume them). -/
structure ParsedArticle where
  title : String
  byline : String
  content : String
  excerpt : String
  siteName : String
deriving Repr, DecidableEq

/-- The structured article returned by `extractArticle` (interface
`ExtractedArticle`). -/
structure ExtractedArticle where
  url : String
  title : String
  author : Option String
  content : String
  contentMd : String
  excerpt : Option String
  siteName : Option String
deriving Repr, DecidableEq

/-- Environment for the article pipeline: the external collaborators of
articleExtractor.ts. `resolve` is `resolveUrl` (total: every failure path
returns a URL), `parse` is the WHATWG URL parser, `fetch` the network
(errors model thrown network/timeout exceptions), `readParse` the
JSDOM+Readability composite (`Except` for a thrown parse error, `Option`
for `reader.parse()` returning null), `turndown` the HTML→Markdown
converter. -/
structure ArticleEnv where
  resolve : String → String
  parse : String → Option UrlParts
  fetch : String → Except Unit FetchResponse
  readParse : String → Except Unit (Option ParsedArticle)
  turndown : String → String

/-- The content-type gate of `extractArticle`:
`contentType.includes('text/html') || contentType.includes('application/xhtml')`. -/
def isHtmlContentType (ct : String) : Bool :=
  jsIncludes ct "text/html" || jsIncludes ct "application/xhtml"

/-- Builds the returned `ExtractedArticle` object from a parsed article
(the final object literal of `extractArticle`, including the
`|| 'Untitled'` and `|| null` defaults). -/
def mkExtracted (env : ArticleEnv) (url : String) (a : ParsedArticle) :
    ExtractedArticle :=
  { url := url
    title := if a.title = "" then "Untitled" else a.title
    author := if a.byline = "" then none else some a.byline
    content := a.content
    contentMd := env.turndown a.content
    excerpt := if a.excerpt = "" then none else some a.excerpt
    siteName := if a.siteName = "" then none else some a.siteName }

/-- The body of `extractArticle` before its catch-all handler: fetch
(propagating a thrown error), reject a non-HTML content-type, parse
(propagating a thrown error), reject a null or too-short parse, else
build the article. -/
def extractArticleE (env : ArticleEnv) (url : String) :
    Except Unit (Option ExtractedArticle) :=
  match env.fetch url with
  | Except.error e => Except.error e
  | Except.ok r =>
    if !isHtmlContentType r.contentType then Except.ok none
    else
      match env.readParse r.body with
      | Except.error e => Except.error e
      | Except.ok none => Except.ok none
      | Except.ok (some a) =>
        if a.content = "" || a.content.length < 100 then Except.ok none
        else Except.ok (some (mkExtracted env url a))

/-- The function `extractArticle(url)`: the whole body is wrapped in a
try/catch whose handler returns null, so every thrown exception becomes
`none`. -/
def extractArticle (env : ArticleEnv) (url : String) :
    Option ExtractedArticle :=
  match extractArticleE env url with
  | Except.error _ => none
  | Except.ok v => v

/-- A row pushed onto `links` by `processLinks` (a CandidateLink). -/
structure CandidateLink where
  originalUrl : String
  resolvedUrl : String
  isArticle : Bool
deriving Repr, DecidableEq

/-- One iteration of the `processLinks` loop for a single URL. The try
block can only throw at `isLikelyArticle` (`resolveUrl` and
`extractArticle` catch internally), and the link is pushed after that
call, so the catch branch pushes exactly one entry with
`resolvedUrl = originalUrl` and `isArticle = false`. -/
def processOne (env : ArticleEnv) (originalUrl : String) :
    CandidateLink × Option ExtractedArticle :=
  let resolved := env.resolve originalUrl
  match isLikelyArticleE env.parse resolved with
  | Except.error _ =>
    (⟨originalUrl, originalUrl, false⟩, none)
  | Except.ok likely =>
    if likely then
      match extractArticle env resolved with
      | some a => (⟨originalUrl, resolved, true⟩, some a)
      | none => (⟨originalUrl, resolved, false⟩, none)
    else
      (⟨originalUrl, resolved, false⟩, none)

/-- The function `processLinks(urls)`: sequential loop accumulating
`links` and `articles`. -/
def processLinks (env : ArticleEnv) :
    List String → List CandidateLink × List ExtractedArticle
  | [] => ([], [])
  | u :: rest =>
    let head := processOne env u
    let tail := processLinks env rest
    (head.1 :: tail.1, head.2.toList ++ tail.2)

/-- True exactly when the resolved URL is classified article-like and
`extractArticle` on it returns an article — the condition under which the
loop sets `isArticle` on the link it just pushed. -/
def articleOutcome (env : ArticleEnv) (originalUrl : String) : Bool :=
  let resolved := env.resolve originalUrl
  match isLikelyArticleE env.parse resolved with
  | Except.error _ => false
  | Except.ok likely => likely && (extractArticle env resolved).isSome

/-! ## Media downloader (src/lib/mediaService.ts) -/

/-- The `MIME_TO_EXT` table of mediaService.ts. -/
def mimeToExt (ct : String) : Option String :=
  if ct = "image/jpeg" then some ".jpg"
  else if ct = "image/png" then some ".png"
  else if ct = "image/gif" then some ".gif"
  else if ct = "image/webp" then some ".webp"
  else if ct = "image/svg+xml" then some ".svg"
  else if ct = "video/mp4" then some ".mp4"
  else if ct = "video/webm" then some ".webm"
  else none

/-- Default extra attempts after the first (`DEFAULT_RETRIES = 2`). -/
def DEFAULT_RETRIES : Nat := 2

/-- Node's `path.basename` on a URL pathname: trailing slashes stripped,
then the last segment; a path of only slashes gives `"/"`, the empty path
gives `""`. -/
def basenameOf (p : String) : String :=
  match (splitOnChar '/' p.toList).reverse.dropWhile (fun s => s.isEmpty) with
  | [] => if p = "" then "" else "/"
  | s :: _ => String.mk s

/-- The regex replace `filename.replace(/[?#].*$/, '')`: drop everything
from the first `?` or `#` on. -/
def stripQueryFragment (s : String) : String :=
  String.mk (s.toList.takeWhile (fun c => c ≠ '?' && c ≠ '#'))

/-- Node's `path.extname` on a basename: the suffix from the last dot,
empty when there is no dot or the only dot is the leading character. -/
def extnameOf (f : String) : String :=
  let cs := f.toList
  let pre := cs.reverse.takeWhile (fun c => c ≠ '.')
  if pre.length = cs.length then ""
  else if pre.length + 1 = cs.length then ""
  else "." ++ String.mk pre.reverse

/-- The outcome of one `fetch` call inside `downloadMediaFile`: either an
HTTP response (status, content-type header, body bytes) or a thrown
network/timeout error. -/
inductive MediaFetch where
  | response (status : Nat) (contentType : String) (body : String)
  | networkError
deriving Repr, DecidableEq

/-- `response.ok`: status in the 2xx range. -/
def respOk (status : Nat) : Bool := 200 ≤ status && status < 300

/-- Environment of `downloadMediaFile`: the pathname of `new URL(url)`
(`none` where the parser throws), `Date.now()` for the fallback filename,
and the fetch outcome per attempt index. -/
structure MediaEnv where
  urlPath : Option String
  now : Nat
  fetch : Nat → MediaFetch

/-- Observable state threaded through `downloadMediaFile`: the set of
files on disk, how many fetches were issued, and how many retry delays
(`sleep(RETRY_DELAY_MS)`) elapsed. -/
structure MediaState where
  fs : List String
  fetches : Nat
  sleeps : Nat
deriving Repr, DecidableEq

/-- The filename derived inside the try block before the fetch:
`path.basename(urlObj.pathname)` with the `img_${Date.now()}` fallback,
then the query/fragment strip. -/
def derivedFilename (env : MediaEnv) (p : String) : String :=
  let f0 := basenameOf p
  let f1 := if f0 = "" || f0 = "/" then "img_" ++ toString env.now else f0
  stripQueryFragment f1

/-- The filename after extension inference from the response content-type
(`contentType.split(';')[0]?.trim() || ''` looked up in `MIME_TO_EXT`,
defaulting to `.jpg`). -/
def finalFilename (env : MediaEnv) (p : String) (contentType : String) : String :=
  let filename := derivedFilename env p
  if extnameOf filename = "" then
    let ct := jsTrim (String.mk ((splitOnChar ';' contentType.toList).headD []))
    filename ++ ((mimeToExt ct).getD ".jpg")
  else filename

/-- Result of one iteration of the retry loop: either the function
returned (`done`), or the iteration failed and the loop continues. -/
inductive AttemptOutcome where
  | done (result : Option String) (st : MediaState)
  | failed (st : MediaState)

/-- One iteration of the `for (attempt...)` loop of `downloadMediaFile`.
A URL the WHATWG parser rejects throws before the fetch; a network error
throws at the fetch; 403 returns null at once; other non-2xx statuses fall
through to the retry path; on 2xx the destination path is computed and the
body written only when the file does not already exist. -/
def dmAttempt (env : MediaEnv) (mediaDir bookmarkId : String)
    (st : MediaState) (attempt : Nat) : AttemptOutcome :=
  match env.urlPath with
  | none => AttemptOutcome.failed st
  | some p =>
    let st1 : MediaState := { st with fetches := st.fetches + 1 }
    match env.fetch attempt with
    | MediaFetch.networkError => AttemptOutcome.failed st1
    | MediaFetch.response status contentType _body =>
      if status = 403 then AttemptOutcome.done none st1
      else if !respOk status then AttemptOutcome.failed st1
      else
        let filename := finalFilename env p contentType
        let filePath := mediaDir ++ "/" ++ bookmarkId ++ "/" ++ filename
        let webPath := "/media/" ++ bookmarkId ++ "/" ++ filename
        if filePath ∈ st1.fs then AttemptOutcome.done (some webPath) st1
        else AttemptOutcome.done (some webPath) { st1 with fs := st1.fs ++ [filePath] }

/-- The retry loop of `downloadMediaFile`: after a failed iteration the
code sleeps only when more attempts remain, then retries; when the
attempts are exhausted it returns null. -/
def dmLoop (env : MediaEnv) (mediaDir bookmarkId : String) (retries : Nat) :
    MediaState → Nat → Nat → Option String × MediaState
  | st, _, 0 => (none, st)
  | st, attempt, remaining + 1 =>
    match dmAttempt env mediaDir bookmarkId st attempt with
    | AttemptOutcome.done r st1 => (r, st1)
    | AttemptOutcome.failed st1 =>
      let st2 := if attempt < retries
        then { st1 with sleeps := st1.sleeps + 1 } else st1
      dmLoop env mediaDir bookmarkId retries st2 (attempt + 1) remaining

/-- The function `downloadMediaFile(mediaDir, url, bookmarkId, options)`
with an explicit retry budget. -/
def downloadMediaFile (env : MediaEnv) (mediaDir bookmarkId : String)
    (retries : Nat) (fs : List String) : Option String × MediaState :=
  dmLoop env mediaDir bookmarkId retries ⟨fs, 0, 0⟩ 0 (retries + 1)

/-- `downloadMediaFile` with the default options (`retries = 2`). -/
def downloadMediaFileDefault (env : MediaEnv) (mediaDir bookmarkId : String)
    (fs : List String) : Option String × MediaState :=
  downloadMediaFile env mediaDir bookmarkId DEFAULT_RETRIES fs

/-! ## Transcription service (src/lib/transcriptionService.ts) -/

/-- Whisper upload working limit: `24 * 1024 * 1024` bytes. -/
def WHISPER_MAX_BYTES : Nat := 24 * 1024 * 1024

/-- The value returned by `TranscriptionService.transcribe`. -/
structure TranscriptionResult where
  transcript : String
  videoUrl : String
  strategy : String
deriving Repr, DecidableEq

/-- Externally observable steps of a transcription run: the yt-dlp audio
extraction, the ffprobe duration probe, and one provider upload per
`audio.transcriptions.create` call. -/
inductive TransEvent where
  | extractAudio
  | probe
  | providerSubmit
deriving Repr, DecidableEq

/-- Environment of a transcription run: whether the OpenAI client was
constructed (`this.openai`), the outcomes of yt-dlp and ffprobe, the size
of the extracted audio file, the provider's answer for a direct upload,
the chunk files produced by the segmenting split, and the provider's
answer per chunk file. `Except.error` models a thrown/rejected call. -/
structure TransEnv where
  client : Option Unit
  ytdlp : Except Unit Unit
  probeResult : Except Unit Nat
  fileSize : Nat
  direct : Except Unit String
  split : Except Unit (List String)
  provider : String → Except Unit String

/-- The chunk loop of `transcribeWithOpenAI`: submit each chunk in order,
keep the trimmed transcript when it is non-empty, stop at the first
provider error. Returns the collected parts (or the error) and the
provider-submission events that happened. -/
def chunkRun (provider : String → Except Unit String) :
    List String → Except Unit (List String) × List TransEvent
  | [] => (Except.ok [], [])
  | c :: rest =>
    match provider c with
    | Except.error e => (Except.error e, [TransEvent.providerSubmit])
    | Except.ok t =>
      let tail := chunkRun provider rest
      (match tail.1 with
       | Except.error e => Except.error e
       | Except.ok ps =>
         Except.ok (if jsTrim t ≠ "" then jsTrim t :: ps else ps),
       TransEvent.providerSubmit :: tail.2)

/-- The method `transcribeWithOpenAI(filePath, videoUrl)`. Throws when the
client is null; otherwise uploads directly when the file is within the
limit, else splits into chunks, submits each in order, joins the trimmed
non-empty parts with a blank line, and in a `finally` block unlinks every
chunk file. Returns the result, the final filesystem, and the events. -/
def transcribeWithOpenAI (env : TransEnv) (fs : List String)
    (videoUrl : String) :
    Except Unit TranscriptionResult × List String × List TransEvent :=
  match env.client with
  | none => (Except.error (), fs, [])
  | some _ =>
    if env.fileSize ≤ WHISPER_MAX_BYTES then
      match env.direct with
      | Except.error e => (Except.error e, fs, [TransEvent.providerSubmit])
      | Except.ok t =>
        (Except.ok ⟨t, videoUrl, "openai"⟩, fs, [TransEvent.providerSubmit])
    else
      match env.split with
      | Except.error e => (Except.error e, fs, [])
      | Except.ok chunks =>
        let fsWithChunks := fs ++ chunks
        let run := chunkRun env.provider chunks
        let fsCleaned := fsWithChunks.filter (fun f => f ∉ chunks)
        match run.1 with
        | Except.error e => (Except.error e, fsCleaned, run.2)
        | Except.ok parts =>
          (Except.ok ⟨String.intercalate "\n\n" parts, videoUrl, "openai"⟩,
           fsCleaned, run.2)

/-- The method `TranscriptionService.transcribe(videoUrl, bookmarkId)`:
extract audio via yt-dlp, probe the duration via ffprobe (both before any
client check), then hand off to `transcribeWithOpenAI`. Any failure
rethrows to the caller. -/
def transcribe (env : TransEnv) (fs : List String) (videoUrl : String) :
    Except Unit TranscriptionResult × List String × List TransEvent :=
  match env.ytdlp with
  | Except.error e => (Except.error e, fs, [TransEvent.extractAudio])
  | Except.ok _ =>
    match env.probeResult with
    | Except.error e =>
      (Except.error e, fs, [TransEvent.extractAudio, TransEvent.probe])
    | Except.ok _ =>
      let inner := transcribeWithOpenAI env fs videoUrl
      (inner.1, inner.2.1,
       [TransEvent.extractAudio, TransEvent.probe] ++ inner.2.2)

/-! ## Bookmark store (lib/db.ts and the server's SQL)

The tables of `bookmarks.db` are embedded as lists of rows. The SQL upsert
statement is the `ON CONFLICT` statement of the POST /api/bookmarks
handler; `lib/db.ts` itself is not in the tree, so the helper functions it
exports are modelled from the spec's description of the Bookmark Store and
the repository's db unit tests. -/

/-- A row of the `bookmarks` table (columns used by the upsert). -/
structure BookmarkRow where
  id : String
  url : String
  author : String
  text : String
deriving Repr, DecidableEq

/-- A row of the `media` table. -/
structure MediaRow where
  bookmarkId : String
  url : String
deriving Repr, DecidableEq

/-- A row of the `links` table. -/
structure LinkRow where
  bookmarkId : String
  originalUrl : String
  resolvedUrl : String
  isArticle : Bool
deriving Repr, DecidableEq

/-- A row of the `articles` table (columns written by the server). -/
structure ArticleRow where
  bookmarkId : String
  url : String
  title : String
  author : Option String
  content : String
  contentMd : String
  excerpt : Option String
  siteName : Option String
deriving Repr, DecidableEq

/-- The relational store: the four tables owned by bookmarks, each in
insertion order. -/
structure DB where
  bookmarks : List BookmarkRow
  media : List MediaRow
  links : List LinkRow
  articles : List ArticleRow
deriving Repr, DecidableEq

/-- The empty database. -/
def DB.empty : DB := ⟨[], [], [], []⟩

/-- The upsert of POST /api/bookmarks, embedding the statement
`INSERT INTO bookmarks (id, url, author, text) VALUES (?, ?, ?, ?)
ON CONFLICT(id) DO UPDATE SET text = CASE WHEN excluded.text != '' ...`,
which on conflict overwrites `text` and `author` only with non-empty
incoming values and lists no other column in its SET clause. `lib/db.ts`'s
`upsertBookmark` is modelled on this identical statement. -/
def upsertBookmark (db : DB) (b : BookmarkRow) : DB :=
  if db.bookmarks.any (fun r => r.id == b.id) then
    { db with bookmarks := db.bookmarks.map (fun r =>
        if r.id == b.id then
          { r with
            text := if b.text ≠ "" then b.text else r.text
            author := if b.author ≠ "" then b.author else r.author }
        else r) }
  else
    { db with bookmarks := db.bookmarks ++ [b] }

/-- The stored bookmark row for an id (the table's primary key makes it
unique; `find?` returns the row when present). -/
def findBookmark (db : DB) (id : String) : Option BookmarkRow :=
  db.bookmarks.find? (fun r => r.id == id)

/-- Modelled from the spec: `getMediaCount` of the absent lib/db.ts —
`SELECT COUNT(*) FROM media WHERE bookmark_id = ?`. -/
def getMediaCount (db : DB) (id : String) : Nat :=
  (db.media.filter (fun m => m.bookmarkId == id)).length

/-- Modelled from the spec: `getArticlesCount` of the absent lib/db.ts —
`SELECT COUNT(*) FROM articles WHERE bookmark_id = ?`. -/
def getArticlesCount (db : DB) (id : String) : Nat :=
  (db.articles.filter (fun a => a.bookmarkId == id)).length

/-- Modelled from the spec: `insertMedia` of the absent lib/db.ts —
`INSERT INTO media (bookmark_id, url) VALUES (?, ?)`. -/
def insertMedia (db : DB) (id url : String) : DB :=
  { db with media := db.media ++ [⟨id, url⟩] }

/-- Modelled from the spec: `deleteMediaForBookmark` of the absent
lib/db.ts — deletes all media rows of the bookmark. -/
def deleteMediaForBookmark (db : DB) (id : String) : DB :=
  { db with media := db.media.filter (fun m => !(m.bookmarkId == id)) }

/-- An article as handed to `replaceLinksAndArticles` converted to its
stored row. -/
def toArticleRow (id : String) (a : ExtractedArticle) : ArticleRow :=
  ⟨id, a.url, a.title, a.author, a.content, a.contentMd, a.excerpt, a.siteName⟩

/-- A candidate link converted to its stored row. -/
def toLinkRow (id : String) (l : CandidateLink) : LinkRow :=
  ⟨id, l.originalUrl, l.resolvedUrl, l.isArticle⟩

/-- Modelled from the spec: `replaceLinksAndArticles` of the absent
lib/db.ts — the link and article sets of the bookmark are fully replaced,
delete-then-reinsert, in one transaction. -/
def replaceLinksAndArticles (db : DB) (id : String)
    (ls : List CandidateLink) (as_ : List ExtractedArticle) : DB :=
  { db with
    links := db.links.filter (fun l => !(l.bookmarkId == id))
      ++ ls.map (toLinkRow id)
    articles := db.articles.filter (fun a => !(a.bookmarkId == id))
      ++ as_.map (toArticleRow id) }

/-- Modelled from the spec: `getSyntheticArticleMdLength` of the absent
lib/db.ts — the length of the Markdown of the bookmark's stored synthetic
article (the article whose site name marks the source platform, `'X'`),
null when the bookmark has no synthetic article. -/
def getSyntheticArticleMdLength (db : DB) (id : String) : Option Nat :=
  (db.articles.find? (fun a => a.bookmarkId == id && a.siteName == some "X")).map
    (fun a => a.contentMd.length)

/-! ## Ingestion orchestrator (POST /api/bookmarks in src/server.ts) -/

/-- The `escapeHtml` helper of server.ts: five sequential global
replaces, each with a one-character pattern. -/
def escapeHtml (s : String) : String :=
  replaceChar '\u0027' "&#39;"
    (replaceChar '\u0022' "&quot;"
      (replaceChar '>' "&gt;"
        (replaceChar '<' "&lt;"
          (replaceChar '&' "&amp;" s))))

/-- The ingestion payload (request body), with absent JS fields modelled
as the falsy values the handler substitutes (`|| ''`, undefined flags as
false, a non-string `threadText` as `none`). -/
structure Payload where
  id : String
  url : String
  author : String
  text : String
  threadText : Option String
  media : List String
  links : List String
  forceExtract : Bool
  forceMedia : Bool
deriving Repr, DecidableEq

/-- Environment of one ingestion: the outcome of `downloadMediaFile` per
media URL (`none` when it returned null) and the result of
`processLinks(tweetLinks)` for the payload's links. -/
structure IngestEnv where
  download : String → Option String
  linksResult : List CandidateLink
  articlesResult : List ExtractedArticle

/-- Which enrichment steps an ingestion performed. -/
structure IngestLog where
  ranMedia : Bool
  ranExtract : Bool
  savedSynthetic : Bool
deriving Repr, DecidableEq

/-- The candidate Markdown of the synthetic-article branch: the trimmed
`threadText` when it is a non-empty string, else the trimmed `text`. -/
def candidateMd (p : Payload) : String :=
  match p.threadText with
  | some t => if jsTrim t ≠ "" then jsTrim t else jsTrim p.text
  | none => jsTrim p.text

/-- The synthetic article object the handler builds from the bookmark's
own text. -/
def syntheticArticle (p : Payload) (md : String) : ExtractedArticle :=
  { url := p.url
    title := "X thread by " ++ (if p.author = "" then "Unknown" else p.author)
    author := if p.author = "" then none else some p.author
    content := "<p>" ++ replaceChar '\n' "<br/>" (escapeHtml md) ++ "</p>"
    contentMd := md
    excerpt := some (jsSlice md 300)
    siteName := some "X" }

/-- The media fan-out of the handler: the `runMedia` gate, the forced
deletion, and the sequential download-and-insert loop. Returns the store
after the fan-out and whether the fan-out ran. -/
def mediaPhase (env : IngestEnv) (p : Payload) (db1 : DB) : DB × Bool :=
  let existingMediaCount := getMediaCount db1 p.id
  let runMedia := !p.media.isEmpty
    && (existingMediaCount == 0 || p.forceMedia)
  let db2 := if runMedia && p.forceMedia && decide (existingMediaCount > 0)
    then deleteMediaForBookmark db1 p.id else db1
  let db3 := if runMedia
    then p.media.foldl
      (fun d m => insertMedia d p.id ((env.download m).getD m)) db2
    else db2
  (db3, runMedia)

/-- The article branch of the handler: the `runExtract` gate with the
links fan-out, else the synthetic-article fallback with its
`shouldSaveSynthetic` gate. Returns the store and the pair
(ranExtract, savedSynthetic). The articles count it reads is unchanged by
the media phase, which writes only media rows. -/
def articlesPhase (env : IngestEnv) (p : Payload) (db3 : DB) :
    DB × Bool × Bool :=
  let existingArticlesCount := getArticlesCount db3 p.id
  let runExtract := !p.links.isEmpty
    && (existingArticlesCount == 0 || p.forceExtract)
  if runExtract then
    (replaceLinksAndArticles db3 p.id env.linksResult env.articlesResult,
     true, false)
  else
    let md := candidateMd p
    if md = "" then (db3, false, false)
    else
      let hasNoLinks := p.links.isEmpty
      let existingSyntheticLen := getSyntheticArticleMdLength db3 p.id
      let shouldSaveSynthetic := hasNoLinks
        && (existingArticlesCount == 0 || p.forceExtract ||
            (match existingSyntheticLen with
             | some len => decide (md.length > len)
             | none => false))
      if shouldSaveSynthetic then
        (replaceLinksAndArticles db3 p.id [] [syntheticArticle p md],
         false, true)
      else (db3, false, false)

/-- The POST /api/bookmarks handler as a state transformer on the store.
The asynchronous fan-outs are run to completion in dispatch order (the
sequential model of the single-process async design). Returns the new
store and a log of which enrichment steps ran. -/
def ingest (env : IngestEnv) (db : DB) (p : Payload) : DB × IngestLog :=
  if p.id = "" then (db, ⟨false, false, false⟩)
  else
    let db1 := upsertBookmark db ⟨p.id, p.url, p.author, p.text⟩
    let m := mediaPhase env p db1
    let a := articlesPhase env p m.1
    (a.1, ⟨m.2, a.2.1, a.2.2⟩)

/-- The media URLs stored for a bookmark, in table order. -/
def mediaUrlsFor (db : DB) (id : String) : List String :=
  (db.media.filter (fun m => m.bookmarkId == id)).map (fun m => m.url)

/-- The article rows stored for a bookmark, in table order. -/
def articlesFor (db : DB) (id : String) : List ArticleRow :=
  db.articles.filter (fun a => a.bookmarkId == id)

/-- The link rows stored for a bookmark, in table order. -/
def linksFor (db : DB) (id : String) : List LinkRow :=
  db.links.filter (fun l => l.bookmarkId == id)

/-- Concrete environment for the claim C4 witness: one resolvable article
link and one unparsable URL. -/
def envC4 : ArticleEnv :=
  { resolve := fun u =>
      if u = "https://t.co/abc" then "https://example.com/real" else u
    parse := fun u =>
      if u = "https://example.com/real" then some ⟨"example.com", "/real"⟩
      else none
    fetch := fun u =>
      if u = "https://example.com/real" then
        Except.ok ⟨"text/html; charset=utf-8", "HTML"⟩
      else Except.error ()
    readParse := fun b =>
      if b = "HTML" then
        Except.ok (some ⟨"T", "", String.mk (List.replicate 150 'a'), "", ""⟩)
      else Except.ok none
    turndown := fun c => c }

/-- Concrete environment for the claim C5 witness: one URL answering with
JSON, one with a long HTML article. -/
def envC5 : ArticleEnv :=
  { resolve := fun u => u
    parse := fun _ => none
    fetch := fun u =>
      if u = "https://api.example.com/data" then
        Except.ok ⟨"application/json", "JSONBODY"⟩
      else Except.ok ⟨"text/html", "HTML"⟩
    readParse := fun b =>
      if b = "HTML" then
        Except.ok (some ⟨"Title", "By", String.mk (List.replicate 150 'x'),
          "Ex", "Site"⟩)
      else Except.ok none
    turndown := fun c => c }

/-- A fetch outcome that `downloadMediaFile` treats as transient and
retries: a thrown network/timeout error, or a non-2xx status other than
403. -/
def isTransientFailure : MediaFetch → Bool
  | MediaFetch.networkError => true
  | MediaFetch.response status _ _ => decide (status ≠ 403) && !respOk status


/-! ## Store lemmas -/

lemma upsert_media (db : DB) (b : BookmarkRow) :
    (upsertBookmark db b).media = db.media := by
  unfold upsertBookmark; split <;> rfl

lemma upsert_articles (db : DB) (b : BookmarkRow) :
    (upsertBookmark db b).articles = db.articles := by
  unfold upsertBookmark; split <;> rfl

lemma upsert_links (db : DB) (b : BookmarkRow) :
    (upsertBookmark db b).links = db.links := by
  unfold upsertBookmark; split <;> rfl

lemma foldl_insertMedia_articles (id : String) (g : String → String) :
    ∀ (ms : List String) (d : DB),
      (ms.foldl (fun d m => insertMedia d id (g m)) d).articles = d.articles := by
  intro ms
  induction ms with
  | nil => intro d; rfl
  | cons m ms ih => intro d; simpa using ih (insertMedia d id (g m))

lemma foldl_insertMedia_links (id : String) (g : String → String) :
    ∀ (ms : List String) (d : DB),
      (ms.foldl (fun d m => insertMedia d id (g m)) d).links = d.links := by
  intro ms
  induction ms with
  | nil => intro d; rfl
  | cons m ms ih => intro d; simpa using ih (insertMedia d id (g m))

lemma mediaUrlsFor_insert (d : DB) (id u : String) :
    mediaUrlsFor (insertMedia d id u) id = mediaUrlsFor d id ++ [u] := by
  simp [mediaUrlsFor, insertMedia, List.filter_append]

lemma mediaUrlsFor_foldl (id : String) (g : String → String) :
    ∀ (ms : List String) (d : DB),
      mediaUrlsFor (ms.foldl (fun d m => insertMedia d id (g m)) d) id
        = mediaUrlsFor d id ++ ms.map g := by
  intro ms
  induction ms with
  | nil => intro d; simp
  | cons m ms ih =>
    intro d
    simp only [List.foldl_cons, List.map_cons]
    rw [ih (insertMedia d id (g m)), mediaUrlsFor_insert]
    simp

lemma filter_not_then_filter {α : Type} (p : α → Bool) (l : List α) :
    (l.filter (fun a => !p a)).filter p = [] := by
  induction l with
  | nil => rfl
  | cons x xs ih =>
    by_cases h : p x = true
    · simp [List.filter_cons, h, ih]
    · simp [List.filter_cons, h, ih]

lemma filter_map_of_true {α β : Type} (f : α → β) (p : β → Bool) (l : List α)
    (h : ∀ a, p (f a) = true) : (l.map f).filter p = l.map f := by
  induction l with
  | nil => rfl
  | cons x xs ih => simp [List.filter_cons, h, ih]

lemma mediaUrlsFor_delete (db : DB) (id : String) :
    mediaUrlsFor (deleteMediaForBookmark db id) id = [] := by
  simp only [mediaUrlsFor, deleteMediaForBookmark]
  rw [filter_not_then_filter (fun m => m.bookmarkId == id) db.media]
  rfl

lemma mediaUrlsFor_eq_nil_of_count_zero (db : DB) (id : String)
    (h : getMediaCount db id = 0) : mediaUrlsFor db id = [] := by
  unfold getMediaCount at h
  unfold mediaUrlsFor
  rw [List.length_eq_zero] at h
  simp [h]

lemma articlesFor_replace (db : DB) (id : String)
    (ls : List CandidateLink) (as_ : List ExtractedArticle) :
    articlesFor (replaceLinksAndArticles db id ls as_) id
      = as_.map (toArticleRow id) := by
  simp only [articlesFor, replaceLinksAndArticles, List.filter_append]
  rw [filter_not_then_filter (fun a => a.bookmarkId == id) db.articles,
    filter_map_of_true (toArticleRow id) (fun a => a.bookmarkId == id) as_
      (fun a => by simp [toArticleRow])]
  simp

lemma linksFor_replace (db : DB) (id : String)
    (ls : List CandidateLink) (as_ : List ExtractedArticle) :
    linksFor (replaceLinksAndArticles db id ls as_) id
      = ls.map (toLinkRow id) := by
  simp only [linksFor, replaceLinksAndArticles, List.filter_append]
  rw [filter_not_then_filter (fun l => l.bookmarkId == id) db.links,
    filter_map_of_true (toLinkRow id) (fun l => l.bookmarkId == id) ls
      (fun l => by simp [toLinkRow])]
  simp

lemma find?_map_update (idb : String) (f : BookmarkRow → BookmarkRow)
    (hf : ∀ r, (f r).id = r.id) :
    ∀ l : List BookmarkRow,
      (l.map (fun r => if r.id == idb then f r else r)).find?
          (fun r => r.id == idb)
        = (l.find? (fun r => r.id == idb)).map f := by
  intro l
  induction l with
  | nil => rfl
  | cons x xs ih =>
    simp only [List.map_cons, List.find?_cons]
    by_cases h : x.id = idb
    · simp only [h, beq_self_eq_true, if_true, hf x, cond_true]
      rfl
    · have hb : (x.id == idb) = false := beq_eq_false_iff_ne.mpr h
      simp only [hb, Bool.false_eq_true, if_false, cond_false]
      exact ih

lemma mediaUrlsFor_ext {d1 d2 : DB} (h : d1.media = d2.media) (id : String) :
    mediaUrlsFor d1 id = mediaUrlsFor d2 id := by
  unfold mediaUrlsFor; rw [h]

lemma getMediaCount_ext {d1 d2 : DB} (h : d1.media = d2.media) (id : String) :
    getMediaCount d1 id = getMediaCount d2 id := by
  unfold getMediaCount; rw [h]

lemma getArticlesCount_ext {d1 d2 : DB} (h : d1.articles = d2.articles)
    (id : String) : getArticlesCount d1 id = getArticlesCount d2 id := by
  unfold getArticlesCount; rw [h]

lemma getSyntheticLen_ext {d1 d2 : DB} (h : d1.articles = d2.articles)
    (id : String) :
    getSyntheticArticleMdLength d1 id = getSyntheticArticleMdLength d2 id := by
  unfold getSyntheticArticleMdLength; rw [h]

lemma articlesFor_ext {d1 d2 : DB} (h : d1.articles = d2.articles)
    (id : String) : articlesFor d1 id = articlesFor d2 id := by
  unfold articlesFor; rw [h]

lemma linksFor_ext {d1 d2 : DB} (h : d1.links = d2.links) (id : String) :
    linksFor d1 id = linksFor d2 id := by
  unfold linksFor; rw [h]

/-! ## Media-phase lemmas -/

lemma mediaPhase_articles (env : IngestEnv) (p : Payload) (db1 : DB) :
    (mediaPhase env p db1).1.articles = db1.articles := by
  simp only [mediaPhase]
  split
  · rw [foldl_insertMedia_articles]
    split <;> rfl
  · split <;> rfl

lemma mediaPhase_links (env : IngestEnv) (p : Payload) (db1 : DB) :
    (mediaPhase env p db1).1.links = db1.links := by
  simp only [mediaPhase]
  split
  · rw [foldl_insertMedia_links]
    split <;> rfl
  · split <;> rfl

lemma mediaPhase_run_eq (env : IngestEnv) (p : Payload) (db1 : DB) :
    (mediaPhase env p db1).2
      = (!p.media.isEmpty
          && (getMediaCount db1 p.id == 0 || p.forceMedia)) := rfl

lemma mediaPhase_count_zero_or_force (env : IngestEnv) (p : Payload)
    (db1 : DB) (h : (mediaPhase env p db1).2 = true) :
    getMediaCount db1 p.id = 0 ∨ p.forceMedia = true := by
  rw [mediaPhase_run_eq] at h
  rcases Bool.and_eq_true_iff.mp h with ⟨_, h2⟩
  rcases Bool.or_eq_true_iff.mp h2 with h3 | h3
  · exact Or.inl (by simpa using h3)
  · exact Or.inr h3

lemma mediaPhase_media_of_run (env : IngestEnv) (p : Payload) (db1 : DB)
    (h : (mediaPhase env p db1).2 = true) :
    mediaUrlsFor (mediaPhase env p db1).1 p.id
      = p.media.map (fun m => (env.download m).getD m) := by
  have hrm : (!p.media.isEmpty
      && (getMediaCount db1 p.id == 0 || p.forceMedia)) = true := h
  simp only [mediaPhase]
  rw [if_pos hrm, mediaUrlsFor_foldl]
  suffices hz : mediaUrlsFor
      (if (!p.media.isEmpty
            && (getMediaCount db1 p.id == 0 || p.forceMedia))
          && p.forceMedia && decide (getMediaCount db1 p.id > 0)
        then deleteMediaForBookmark db1 p.id else db1) p.id = [] by
    rw [hz]; simp
  by_cases hd : ((!p.media.isEmpty
      && (getMediaCount db1 p.id == 0 || p.forceMedia))
      && p.forceMedia && decide (getMediaCount db1 p.id > 0)) = true
  · rw [if_pos hd]
    exact mediaUrlsFor_delete db1 p.id
  · rw [if_neg (by simpa using hd)]
    apply mediaUrlsFor_eq_nil_of_count_zero
    rcases mediaPhase_count_zero_or_force env p db1 h with hc | hf
    · exact hc
    · by_cases hgt : getMediaCount db1 p.id > 0
      · exact absurd (by rw [hrm, hf]; simp [hgt]) hd
      · omega

lemma mediaPhase_skip (env : IngestEnv) (p : Payload) (db1 : DB)
    (h : (mediaPhase env p db1).2 = false) :
    (mediaPhase env p db1).1 = db1 := by
  have hrm : (!p.media.isEmpty
      && (getMediaCount db1 p.id == 0 || p.forceMedia)) = false := h
  simp only [mediaPhase]
  rw [hrm]
  simp

/-! ## Article-phase lemmas -/

lemma articlesPhase_media (env : IngestEnv) (p : Payload) (db3 : DB) :
    (articlesPhase env p db3).1.media = db3.media := by
  simp only [articlesPhase]
  split
  · rfl
  · split
    · rfl
    · split <;> rfl

lemma articlesPhase_run_gate (env : IngestEnv) (p : Payload) (db3 : DB)
    (h : (articlesPhase env p db3).2.1 = true) :
    (!p.links.isEmpty
      && (getArticlesCount db3 p.id == 0 || p.forceExtract)) = true := by
  by_cases hg : (!p.links.isEmpty
      && (getArticlesCount db3 p.id == 0 || p.forceExtract)) = true
  · exact hg
  · exfalso
    simp only [articlesPhase] at h
    rw [if_neg (by simpa using hg)] at h
    split at h
    · exact absurd h (by simp)
    · split at h
      · exact absurd h (by simp)
      · exact absurd h (by simp)

lemma articlesPhase_result_of_run (env : IngestEnv) (p : Payload) (db3 : DB)
    (h : (articlesPhase env p db3).2.1 = true) :
    (articlesPhase env p db3).1
      = replaceLinksAndArticles db3 p.id env.linksResult env.articlesResult := by
  have hg := articlesPhase_run_gate env p db3 h
  simp only [articlesPhase]
  rw [if_pos hg]

lemma synth_cond_iff (c : Nat) (f : Bool) (o : Option Nat) (x : Nat) :
    ((c == 0 || f || (match o with
        | some len => decide (x > len)
        | none => false)) = true)
      ↔ (c = 0 ∨ f = true ∨ ∃ len, o = some len ∧ len < x) := by
  cases o <;> simp [or_assoc]

lemma ingest_phases (env : IngestEnv) (db : DB) (p : Payload)
    (hid : p.id ≠ "") :
    ingest env db p =
      ((articlesPhase env p
          (mediaPhase env p
            (upsertBookmark db ⟨p.id, p.url, p.author, p.text⟩)).1).1,
        ⟨(mediaPhase env p
            (upsertBookmark db ⟨p.id, p.url, p.author, p.text⟩)).2,
          (articlesPhase env p
            (mediaPhase env p
              (upsertBookmark db ⟨p.id, p.url, p.author, p.text⟩)).1).2.1,
          (articlesPhase env p
            (mediaPhase env p
              (upsertBookmark db ⟨p.id, p.url, p.author, p.text⟩)).1).2.2⟩) := by
  simp [ingest, hid]

lemma articlesPhase_saved_iff (env : IngestEnv) (p : Payload) (db3 : DB)
    (hlinks : p.links = []) :
    ((articlesPhase env p db3).2.2 = true) ↔
      (candidateMd p ≠ "" ∧
        (getArticlesCount db3 p.id = 0 ∨ p.forceExtract = true ∨
          ∃ len, getSyntheticArticleMdLength db3 p.id = some len ∧
            len < (candidateMd p).length)) := by
  simp only [articlesPhase, hlinks, List.isEmpty_nil, Bool.not_true,
    Bool.false_and, Bool.true_and]
  rw [if_neg (by simp)]
  split
  next hmd => simp [hmd]
  next hmd =>
    rw [← synth_cond_iff (getArticlesCount db3 p.id) p.forceExtract
      (getSyntheticArticleMdLength db3 p.id) (candidateMd p).length]
    split
    next hc => simp [hmd, hc]
    next hc =>
      constructor
      · intro hfalse; exact absurd hfalse (by simp)
      · intro hand; exact absurd hand.2 hc

lemma articlesPhase_saved_result (env : IngestEnv) (p : Payload) (db3 : DB)
    (hlinks : p.links = []) (h : (articlesPhase env p db3).2.2 = true) :
    (articlesPhase env p db3).1
      = replaceLinksAndArticles db3 p.id []
          [syntheticArticle p (candidateMd p)] := by
  simp only [articlesPhase, hlinks, List.isEmpty_nil, Bool.not_true,
    Bool.false_and, Bool.true_and] at h ⊢
  rw [if_neg (by simp)] at h ⊢
  split at h
  next hmd => simp at h
  next hmd =>
    split at h
    next hc => rw [if_neg hmd, if_pos hc]
    next hc => simp at h

lemma articlesPhase_not_saved_result (env : IngestEnv) (p : Payload)
    (db3 : DB) (hlinks : p.links = [])
    (h : (articlesPhase env p db3).2.2 = false) :
    (articlesPhase env p db3).1 = db3 := by
  simp only [articlesPhase, hlinks, List.isEmpty_nil, Bool.not_true,
    Bool.false_and, Bool.true_and] at h ⊢
  rw [if_neg (by simp)] at h ⊢
  split at h
  next hmd => rw [if_pos hmd]
  next hmd =>
    split at h
    next hc => simp at h
    next hc => rw [if_neg hmd, if_neg hc]

/-! ## Claim C1 -/

/-- Claim C1, as stated, is false: the ON CONFLICT clause of the upsert
lists only `text` and `author` in its SET clause, so the stored url is NOT
updated to the incoming url. Concretely, upserting id "X" with url "u1"
and then again with url "u2" leaves the stored url at "u1", not "u2"
(while author and text merge as described). -/
theorem claim_C1_counterexample :
    findBookmark
        (upsertBookmark (upsertBookmark DB.empty ⟨"X", "u1", "a", "A"⟩)
          ⟨"X", "u2", "b", ""⟩) "X"
      = some ⟨"X", "u1", "b", "A"⟩
    ∧ ("u1" : String) ≠ "u2" := by
  constructor
  · rfl
  · decide

/-- Claim C1 (amended): for every bookmark id that already has a stored
row, the upsert leaves the stored url unchanged, while the stored text and
author are overwritten only when the incoming value is non-empty; in
particular ingesting text "A" and then text "" leaves the stored text "A". -/
theorem claim_C1_upsert_merge (db : DB) (b : BookmarkRow) (r : BookmarkRow)
    (h : findBookmark db b.id = some r) :
    findBookmark (upsertBookmark db b) b.id
      = some { r with
          text := if b.text ≠ "" then b.text else r.text
          author := if b.author ≠ "" then b.author else r.author } := by
  unfold findBookmark at h ⊢
  have hmem := List.mem_of_find?_eq_some h
  have hpr := List.find?_some h
  unfold upsertBookmark
  have hany : db.bookmarks.any (fun row => row.id == b.id) = true :=
    List.any_eq_true.mpr ⟨r, hmem, hpr⟩
  rw [if_pos hany]
  show (db.bookmarks.map (fun row =>
      if row.id == b.id then
        { row with
          text := if b.text ≠ "" then b.text else row.text
          author := if b.author ≠ "" then b.author else row.author }
      else row)).find? (fun row => row.id == b.id) = _
  rw [find?_map_update b.id
    (fun row =>
      { row with
        text := if b.text ≠ "" then b.text else row.text
        author := if b.author ≠ "" then b.author else row.author })
    (fun _ => rfl) db.bookmarks]
  rw [h]
  rfl

/-- Witness for claim C1 (amended): a database already storing
⟨"X", "u1", "a", "A"⟩, upserted with ⟨"X", "u2", "b", ""⟩, keeps url "u1"
and text "A" and takes the non-empty incoming author "b". -/
theorem claim_C1_upsert_merge_witness :
    findBookmark
        (upsertBookmark ⟨[⟨"X", "u1", "a", "A"⟩], [], [], []⟩
          ⟨"X", "u2", "b", ""⟩) "X"
      = some ⟨"X", "u1", "b", "A"⟩ := by
  have h := claim_C1_upsert_merge ⟨[⟨"X", "u1", "a", "A"⟩], [], [], []⟩
    ⟨"X", "u2", "b", ""⟩ ⟨"X", "u1", "a", "A"⟩ (by rfl)
  simpa using h

/-! ## Claim C2 -/

/-- Claim C2: the media fan-out runs only when the bookmark currently has
zero media rows or forceMedia is set, and the article fan-out runs only
when it has zero article rows or forceExtract is set; whenever a fan-out
runs, the rows of that kind after the ingestion are exactly the new
fan-out's results (in particular, when the fan-out is forced while rows of
that kind exist, all existing rows of that kind are deleted before the new
results are written). -/
theorem claim_C2_enrichment_gating (env : IngestEnv) (db : DB) (p : Payload) :
    ((ingest env db p).2.ranMedia = true →
      getMediaCount db p.id = 0 ∨ p.forceMedia = true) ∧
    ((ingest env db p).2.ranExtract = true →
      getArticlesCount db p.id = 0 ∨ p.forceExtract = true) ∧
    ((ingest env db p).2.ranMedia = true →
      mediaUrlsFor (ingest env db p).1 p.id
        = p.media.map (fun m => (env.download m).getD m)) ∧
    ((ingest env db p).2.ranExtract = true →
      articlesFor (ingest env db p).1 p.id
          = env.articlesResult.map (toArticleRow p.id) ∧
      linksFor (ingest env db p).1 p.id
          = env.linksResult.map (toLinkRow p.id)) := by
  by_cases hid : p.id = ""
  · simp [ingest, hid]
  · have hing : ingest env db p =
        ((articlesPhase env p
            (mediaPhase env p
              (upsertBookmark db ⟨p.id, p.url, p.author, p.text⟩)).1).1,
          ⟨(mediaPhase env p
              (upsertBookmark db ⟨p.id, p.url, p.author, p.text⟩)).2,
            (articlesPhase env p
              (mediaPhase env p
                (upsertBookmark db ⟨p.id, p.url, p.author, p.text⟩)).1).2.1,
            (articlesPhase env p
              (mediaPhase env p
                (upsertBookmark db ⟨p.id, p.url, p.author, p.text⟩)).1).2.2⟩) := by
      simp [ingest, hid]
    rw [hing]
    refine ⟨?_, ?_, ?_, ?_⟩
    · intro h
      have hz := mediaPhase_count_zero_or_force env p
        (upsertBookmark db ⟨p.id, p.url, p.author, p.text⟩) h
      rwa [getMediaCount_ext (upsert_media db ⟨p.id, p.url, p.author, p.text⟩)
        p.id] at hz
    · intro h
      have hg := articlesPhase_run_gate env p
        (mediaPhase env p (upsertBookmark db ⟨p.id, p.url, p.author, p.text⟩)).1 h
      have h2 := (Bool.and_eq_true_iff.mp hg).2
      have hcnt : getArticlesCount
          (mediaPhase env p
            (upsertBookmark db ⟨p.id, p.url, p.author, p.text⟩)).1 p.id
          = getArticlesCount db p.id := by
        rw [getArticlesCount_ext
          (mediaPhase_articles env p
            (upsertBookmark db ⟨p.id, p.url, p.author, p.text⟩)) p.id,
          getArticlesCount_ext
            (upsert_articles db ⟨p.id, p.url, p.author, p.text⟩) p.id]
      rcases Bool.or_eq_true_iff.mp h2 with h3 | h3
      · exact Or.inl (by rw [← hcnt]; simpa using h3)
      · exact Or.inr h3
    · intro h
      rw [mediaUrlsFor_ext (articlesPhase_media env p
        (mediaPhase env p (upsertBookmark db ⟨p.id, p.url, p.author, p.text⟩)).1)
        p.id]
      exact mediaPhase_media_of_run env p
        (upsertBookmark db ⟨p.id, p.url, p.author, p.text⟩) h
    · intro h
      rw [articlesPhase_result_of_run env p
        (mediaPhase env p (upsertBookmark db ⟨p.id, p.url, p.author, p.text⟩)).1 h]
      exact ⟨articlesFor_replace _ p.id env.linksResult env.articlesResult,
        linksFor_replace _ p.id env.linksResult env.articlesResult⟩

/-- Witness for claim C2: a bookmark that already has one media row and
one article row, re-ingested with both force flags set; both fan-outs run
and the media/article/link row sets afterwards are exactly the new
results. -/
theorem claim_C2_enrichment_gating_witness :
    (ingest ⟨fun _ => some "/media/X/n.jpg", [⟨"l2", "r2", false⟩],
        [⟨"r2", "T2", none, "c2", "md2", none, none⟩]⟩
      ⟨[⟨"X", "u", "a", "t"⟩], [⟨"X", "old.jpg"⟩],
        [⟨"X", "l1", "r1", true⟩],
        [⟨"X", "r1", "T1", none, "c1", "md1", none, none⟩]⟩
      ⟨"X", "u", "a", "t", none, ["m1"], ["l2"], true, true⟩).2.ranMedia = true
    ∧
    (mediaUrlsFor (ingest ⟨fun _ => some "/media/X/n.jpg", [⟨"l2", "r2", false⟩],
        [⟨"r2", "T2", none, "c2", "md2", none, none⟩]⟩
      ⟨[⟨"X", "u", "a", "t"⟩], [⟨"X", "old.jpg"⟩],
        [⟨"X", "l1", "r1", true⟩],
        [⟨"X", "r1", "T1", none, "c1", "md1", none, none⟩]⟩
      ⟨"X", "u", "a", "t", none, ["m1"], ["l2"], true, true⟩).1 "X"
      = ["/media/X/n.jpg"]) := by
  have h := claim_C2_enrichment_gating
    ⟨fun _ => some "/media/X/n.jpg", [⟨"l2", "r2", false⟩],
      [⟨"r2", "T2", none, "c2", "md2", none, none⟩]⟩
    ⟨[⟨"X", "u", "a", "t"⟩], [⟨"X", "old.jpg"⟩],
      [⟨"X", "l1", "r1", true⟩],
      [⟨"X", "r1", "T1", none, "c1", "md1", none, none⟩]⟩
    ⟨"X", "u", "a", "t", none, ["m1"], ["l2"], true, true⟩
  refine ⟨by rfl, ?_⟩
  rw [h.2.2.1 (by rfl)]
  rfl

/-! ## Claim C3 -/

/-- Claim C3: when the ingestion payload carries no links, a synthetic
article built from the non-empty trimmed threadText (preferred) or text
is written exactly when no article exists yet for the bookmark, or
forceExtract is set, or the candidate text is strictly longer than the
stored synthetic article's Markdown; when it is written the article set
becomes that single synthetic article, and in every other case (including
a strictly shorter or equal-length candidate) the stored articles are
left unchanged. -/
theorem claim_C3_synthetic_monotonic (env : IngestEnv) (db : DB)
    (p : Payload) (hid : p.id ≠ "") (hlinks : p.links = []) :
    ((ingest env db p).2.savedSynthetic = true ↔
      candidateMd p ≠ "" ∧
        (getArticlesCount db p.id = 0 ∨ p.forceExtract = true ∨
          ∃ len, getSyntheticArticleMdLength db p.id = some len ∧
            len < (candidateMd p).length)) ∧
    ((ingest env db p).2.savedSynthetic = true →
      articlesFor (ingest env db p).1 p.id
        = [toArticleRow p.id (syntheticArticle p (candidateMd p))]) ∧
    ((ingest env db p).2.savedSynthetic = false →
      (ingest env db p).1.articles = db.articles) := by
  rw [ingest_phases env db p hid]
  have hart : (mediaPhase env p
      (upsertBookmark db ⟨p.id, p.url, p.author, p.text⟩)).1.articles
      = db.articles := by
    rw [mediaPhase_articles env p
      (upsertBookmark db ⟨p.id, p.url, p.author, p.text⟩),
      upsert_articles db ⟨p.id, p.url, p.author, p.text⟩]
  refine ⟨?_, ?_, ?_⟩
  · rw [articlesPhase_saved_iff env p
      (mediaPhase env p
        (upsertBookmark db ⟨p.id, p.url, p.author, p.text⟩)).1 hlinks,
      getArticlesCount_ext hart p.id, getSyntheticLen_ext hart p.id]
  · intro h
    rw [articlesPhase_saved_result env p
      (mediaPhase env p
        (upsertBookmark db ⟨p.id, p.url, p.author, p.text⟩)).1 hlinks h,
      articlesFor_replace _ p.id [] [syntheticArticle p (candidateMd p)]]
    rfl
  · intro h
    rw [articlesPhase_not_saved_result env p
      (mediaPhase env p
        (upsertBookmark db ⟨p.id, p.url, p.author, p.text⟩)).1 hlinks h]
    exact hart

/-- Witness for claim C3: a bookmark storing a synthetic article with
Markdown "aa" (length 2), re-ingested without links and with text "bbb"
(length 3 > 2): the synthetic article is replaced by the length-3 one. -/
theorem claim_C3_synthetic_monotonic_witness :
    (ingest ⟨fun _ => none, [], []⟩
        ⟨[⟨"X", "u", "a", "aa"⟩], [], [],
          [⟨"X", "u", "X thread by a", some "a", "<p>aa</p>", "aa",
            some "aa", some "X"⟩]⟩
        ⟨"X", "u", "a", "bbb", none, [], [], false, false⟩).2.savedSynthetic
      = true ∧
    articlesFor (ingest ⟨fun _ => none, [], []⟩
        ⟨[⟨"X", "u", "a", "aa"⟩], [], [],
          [⟨"X", "u", "X thread by a", some "a", "<p>aa</p>", "aa",
            some "aa", some "X"⟩]⟩
        ⟨"X", "u", "a", "bbb", none, [], [], false, false⟩).1 "X"
      = [⟨"X", "u", "X thread by a", some "a", "<p>bbb</p>", "bbb",
          some "bbb", some "X"⟩] := by
  have h := claim_C3_synthetic_monotonic ⟨fun _ => none, [], []⟩
    ⟨[⟨"X", "u", "a", "aa"⟩], [], [],
      [⟨"X", "u", "X thread by a", some "a", "<p>aa</p>", "aa",
        some "aa", some "X"⟩]⟩
    ⟨"X", "u", "a", "bbb", none, [], [], false, false⟩
    (by decide) rfl
  have hsaved := h.1.mpr ⟨by decide, Or.inr (Or.inr ⟨2, rfl, by decide⟩)⟩
  refine ⟨hsaved, ?_⟩
  rw [h.2.1 hsaved]
  rfl

/-! ## Claim C4 -/

lemma processOne_originalUrl (env : ArticleEnv) (u : String) :
    ((processOne env u).1).originalUrl = u := by
  unfold processOne
  cases hE : isLikelyArticleE env.parse (env.resolve u) with
  | error e => simp [hE]
  | ok likely =>
    cases likely with
    | false => simp [hE]
    | true =>
      cases hX : extractArticle env (env.resolve u) with
      | none => simp [hE, hX]
      | some a => simp [hE, hX]

lemma processOne_isArticle (env : ArticleEnv) (u : String) :
    ((processOne env u).1).isArticle = articleOutcome env u := by
  unfold processOne articleOutcome
  cases hE : isLikelyArticleE env.parse (env.resolve u) with
  | error e => simp [hE]
  | ok likely =>
    cases likely with
    | false => simp [hE]
    | true =>
      cases hX : extractArticle env (env.resolve u) with
      | none => simp [hE, hX]
      | some a => simp [hE, hX]

lemma processLinks_getD (env : ArticleEnv) :
    ∀ (urls : List String) (i : Nat), i < urls.length →
      (processLinks env urls).1.getD i ⟨"", "", false⟩
        = (processOne env (urls.getD i "")).1 := by
  intro urls
  induction urls with
  | nil => intro i hi; simp at hi
  | cons u rest ih =>
    intro i hi
    cases i with
    | zero => simp [processLinks]
    | succ n =>
      simp only [processLinks, List.getD_cons_succ]
      exact ih n (by simpa using hi)

lemma processLinks_length (env : ArticleEnv) :
    ∀ urls : List String,
      (processLinks env urls).1.length = urls.length := by
  intro urls
  induction urls with
  | nil => rfl
  | cons u rest ih => simp [processLinks, ih]

/-- Claim C4: `processLinks` returns exactly one CandidateLink per input
URL, recorded in submission order, with `isArticle` true exactly when the
resolved URL was classified article-like and `extractArticle` returned an
article; a per-URL failure never drops or reorders other entries and
never rejects the batch (the result is total and the per-index
characterisation depends only on that index's URL). -/
theorem claim_C4_processLinks_batch (env : ArticleEnv) (urls : List String) :
    (processLinks env urls).1.length = urls.length ∧
    (∀ i : Nat, i < urls.length →
      ((processLinks env urls).1.getD i ⟨"", "", false⟩).originalUrl
          = urls.getD i "" ∧
      (((processLinks env urls).1.getD i ⟨"", "", false⟩).isArticle = true ↔
        articleOutcome env (urls.getD i "") = true)) := by
  refine ⟨processLinks_length env urls, ?_⟩
  intro i hi
  rw [processLinks_getD env urls i hi]
  exact ⟨processOne_originalUrl env (urls.getD i ""),
    by rw [processOne_isArticle env (urls.getD i "")]⟩

/-- Witness for claim C4 at a two-URL batch whose second URL does not
parse: both indices keep their submission order and outcome. -/
theorem claim_C4_processLinks_batch_witness :
    (processLinks envC4 ["https://t.co/abc", "notaurl"]).1.length = 2 ∧
    ((processLinks envC4 ["https://t.co/abc", "notaurl"]).1.getD 0
        ⟨"", "", false⟩).originalUrl = "https://t.co/abc" ∧
    ((processLinks envC4 ["https://t.co/abc", "notaurl"]).1.getD 1
        ⟨"", "", false⟩).originalUrl = "notaurl" ∧
    (((processLinks envC4 ["https://t.co/abc", "notaurl"]).1.getD 1
        ⟨"", "", false⟩).isArticle = true ↔
      articleOutcome envC4 "notaurl" = true) := by
  have h := claim_C4_processLinks_batch envC4 ["https://t.co/abc", "notaurl"]
  exact ⟨h.1, (h.2 0 (by decide)).1, (h.2 1 (by decide)).1, (h.2 1 (by decide)).2⟩

/-! ## Claim C5 -/

/-- Claim C5: `extractArticle` returns null — never raising to its caller,
which its total `Option` result expresses — when the fetch throws, when
the content-type is not HTML/XHTML, when parsing throws, when no readable
content is found, and when the content is shorter than 100 characters;
otherwise it returns the structured article with both HTML and Markdown
forms. -/
theorem claim_C5_extract_null_or_article (env : ArticleEnv) (url : String) :
    (∀ e, env.fetch url = Except.error e → extractArticle env url = none) ∧
    (∀ r, env.fetch url = Except.ok r →
      isHtmlContentType r.contentType = false →
      extractArticle env url = none) ∧
    (∀ r e, env.fetch url = Except.ok r →
      isHtmlContentType r.contentType = true →
      env.readParse r.body = Except.error e →
      extractArticle env url = none) ∧
    (∀ r, env.fetch url = Except.ok r →
      isHtmlContentType r.contentType = true →
      env.readParse r.body = Except.ok none →
      extractArticle env url = none) ∧
    (∀ r a, env.fetch url = Except.ok r →
      isHtmlContentType r.contentType = true →
      env.readParse r.body = Except.ok (some a) →
      a.content.length < 100 →
      extractArticle env url = none) ∧
    (∀ r a, env.fetch url = Except.ok r →
      isHtmlContentType r.contentType = true →
      env.readParse r.body = Except.ok (some a) →
      100 ≤ a.content.length →
      extractArticle env url = some (mkExtracted env url a)) := by
  refine ⟨?_, ?_, ?_, ?_, ?_, ?_⟩
  · intro e hf; simp [extractArticle, extractArticleE, hf]
  · intro r hf hct; simp [extractArticle, extractArticleE, hf, hct]
  · intro r e hf hct hp; simp [extractArticle, extractArticleE, hf, hct, hp]
  · intro r hf hct hp; simp [extractArticle, extractArticleE, hf, hct, hp]
  · intro r a hf hct hp hlen
    simp [extractArticle, extractArticleE, hf, hct, hp, hlen]
  · intro r a hf hct hp hlen
    have hne : ¬(a.content = "") := by
      intro hz
      rw [hz] at hlen
      simp at hlen
    have hnl : ¬(a.content.length < 100) := Nat.not_lt.mpr hlen
    simp [extractArticle, extractArticleE, hf, hct, hp, hne, hnl]

set_option maxRecDepth 4000 in
/-- Witness for claim C5: the JSON response yields null, the HTML response
yields the structured article. -/
theorem claim_C5_extract_null_or_article_witness :
    extractArticle envC5 "https://api.example.com/data" = none ∧
    extractArticle envC5 "https://example.com/post"
      = some (mkExtracted envC5 "https://example.com/post"
          ⟨"Title", "By", String.mk (List.replicate 150 'x'), "Ex", "Site"⟩) := by
  constructor
  · exact (claim_C5_extract_null_or_article envC5
      "https://api.example.com/data").2.1 ⟨"application/json", "JSONBODY"⟩
      rfl (by decide)
  · exact (claim_C5_extract_null_or_article envC5
      "https://example.com/post").2.2.2.2.2
      ⟨"text/html", "HTML"⟩
      ⟨"Title", "By", String.mk (List.replicate 150 'x'), "Ex", "Site"⟩
      rfl (by decide) rfl (by decide)

/-! ## Claim C10 -/

/-- Claim C10: `isLikelyArticle` is total only when its input parses as an
absolute URL — on every string the WHATWG parser rejects it throws
(modelled as `Except.error`) instead of returning a boolean — and inside
the `processLinks` loop that exception is caught and the URL recorded as
a non-article CandidateLink whose resolved URL is the original URL. -/
theorem claim_C10_classifier_throws :
    (∀ (parse : String → Option UrlParts) (url : String),
      parse url = none → isLikelyArticleE parse url = Except.error ()) ∧
    (∀ (env : ArticleEnv) (u : String),
      env.parse (env.resolve u) = none →
      processOne env u = (⟨u, u, false⟩, none)) := by
  constructor
  · intro parse url h
    simp [isLikelyArticleE, h]
  · intro env u h
    simp [processOne, isLikelyArticleE, h]

/-- Witness for claim C10: a URL the parser rejects makes the classifier
throw, and `processLinks` on it yields the non-article link. -/
theorem claim_C10_classifier_throws_witness :
    isLikelyArticleE (fun _ => none) "notaurl" = Except.error () ∧
    processOne
      ⟨fun u => u, fun _ => none, fun _ => Except.error (),
        fun _ => Except.ok none, fun c => c⟩ "notaurl"
      = (⟨"notaurl", "notaurl", false⟩, none) :=
  ⟨claim_C10_classifier_throws.1 (fun _ => none) "notaurl" rfl,
   claim_C10_classifier_throws.2
     ⟨fun u => u, fun _ => none, fun _ => Except.error (),
       fun _ => Except.ok none, fun c => c⟩ "notaurl" rfl⟩

/-! ## Claims C6 and C7 -/

lemma dmAttempt_failed (env : MediaEnv) (m b : String) (st : MediaState)
    (i : Nat) (p : String) (hp : env.urlPath = some p)
    (hfail : isTransientFailure (env.fetch i) = true) :
    dmAttempt env m b st i
      = AttemptOutcome.failed { st with fetches := st.fetches + 1 } := by
  unfold dmAttempt
  cases hfi : env.fetch i with
  | networkError => simp [hp, hfi]
  | response s ct body =>
    rw [hfi] at hfail
    unfold isTransientFailure at hfail
    obtain ⟨h1, h2⟩ := Bool.and_eq_true_iff.mp hfail
    have hs : s ≠ 403 := of_decide_eq_true h1
    have hok : respOk s = false := by
      cases hro : respOk s
      · rfl
      · rw [hro] at h2; simp at h2
    simp [hp, hfi, hs, hok]

lemma dmLoop_failed_step (env : MediaEnv) (m b : String) (r : Nat)
    (st st1 : MediaState) (a n : Nat)
    (h : dmAttempt env m b st a = AttemptOutcome.failed st1) :
    dmLoop env m b r st a (n + 1)
      = dmLoop env m b r
          (if a < r then { st1 with sleeps := st1.sleeps + 1 } else st1)
          (a + 1) n := by
  rw [dmLoop, h]

lemma dmLoop_done_step (env : MediaEnv) (m b : String) (r : Nat)
    (st st1 : MediaState) (a n : Nat) (res : Option String)
    (h : dmAttempt env m b st a = AttemptOutcome.done res st1) :
    dmLoop env m b r st a (n + 1) = (res, st1) := by
  rw [dmLoop, h]

/-- Claim C7: a URL answering HTTP 403 yields null after exactly one
fetch with zero retry delays; a URL failing transiently on every attempt
(non-2xx other than 403, or a thrown network error) is fetched
1 + 2 = 3 times with the two retry delays before null is returned; the
filesystem is untouched in both cases. -/
theorem claim_C7_403_short_circuit (env : MediaEnv) (m b : String)
    (fs : List String) (p : String) (hp : env.urlPath = some p) :
    (∀ ct body, env.fetch 0 = MediaFetch.response 403 ct body →
      downloadMediaFileDefault env m b fs = (none, ⟨fs, 1, 0⟩)) ∧
    ((∀ i, i < 3 → isTransientFailure (env.fetch i) = true) →
      downloadMediaFileDefault env m b fs = (none, ⟨fs, 3, 2⟩)) := by
  constructor
  · intro ct body hf
    have ha : dmAttempt env m b ⟨fs, 0, 0⟩ 0
        = AttemptOutcome.done none ⟨fs, 1, 0⟩ := by
      unfold dmAttempt
      rw [hp, hf]
      simp
    show dmLoop env m b DEFAULT_RETRIES ⟨fs, 0, 0⟩ 0 (DEFAULT_RETRIES + 1)
        = (none, ⟨fs, 1, 0⟩)
    rw [dmLoop_done_step env m b DEFAULT_RETRIES ⟨fs, 0, 0⟩ ⟨fs, 1, 0⟩ 0
      DEFAULT_RETRIES none ha]
  · intro hall
    have h0 := dmAttempt_failed env m b ⟨fs, 0, 0⟩ 0 p hp (hall 0 (by decide))
    have h1 := dmAttempt_failed env m b ⟨fs, 1, 1⟩ 1 p hp (hall 1 (by decide))
    have h2 := dmAttempt_failed env m b ⟨fs, 2, 2⟩ 2 p hp (hall 2 (by decide))
    show dmLoop env m b DEFAULT_RETRIES ⟨fs, 0, 0⟩ 0 (DEFAULT_RETRIES + 1)
        = (none, ⟨fs, 3, 2⟩)
    rw [show DEFAULT_RETRIES + 1 = 2 + 1 from rfl,
      dmLoop_failed_step env m b DEFAULT_RETRIES ⟨fs, 0, 0⟩ ⟨fs, 1, 0⟩ 0 2 h0]
    norm_num [DEFAULT_RETRIES]
    rw [show (2 : Nat) = 1 + 1 from rfl,
      dmLoop_failed_step env m b 2 ⟨fs, 1, 1⟩ ⟨fs, 2, 1⟩ 1 1 h1]
    norm_num
    rw [dmLoop_failed_step env m b 2 ⟨fs, 2, 2⟩ ⟨fs, 3, 2⟩ 2 0 h2]
    norm_num [dmLoop]

/-- Witness for claim C7: concrete environments realising the 403 case
and the always-500 case. -/
theorem claim_C7_403_short_circuit_witness :
    downloadMediaFileDefault
        ⟨some "/img/a.jpg", 0, fun _ => MediaFetch.response 403 "" ""⟩
        "/data/media" "b1" []
      = (none, ⟨[], 1, 0⟩) ∧
    downloadMediaFileDefault
        ⟨some "/img/a.jpg", 0, fun _ => MediaFetch.response 500 "" ""⟩
        "/data/media" "b1" []
      = (none, ⟨[], 3, 2⟩) :=
  ⟨(claim_C7_403_short_circuit
      ⟨some "/img/a.jpg", 0, fun _ => MediaFetch.response 403 "" ""⟩
      "/data/media" "b1" [] "/img/a.jpg" rfl).1 "" "" rfl,
   (claim_C7_403_short_circuit
      ⟨some "/img/a.jpg", 0, fun _ => MediaFetch.response 500 "" ""⟩
      "/data/media" "b1" [] "/img/a.jpg" rfl).2
     (fun _ _ => rfl)⟩

/-- Claim C6, as stated, is false: the destination-exists check sits after
the `fetch`, so a call whose destination file already exists still issues
a network fetch — and when that fetch answers 403 the call returns null
rather than the existing file's path. Here the destination
`/data/media/b1/photo.jpg` exists, yet the call fetches once (fetch count
1, not 0) and returns none, not the local path. -/
theorem claim_C6_counterexample :
    downloadMediaFileDefault
        ⟨some "/img/photo.jpg", 0, fun _ => MediaFetch.response 403 "" ""⟩
        "/data/media" "b1" ["/data/media/b1/photo.jpg"]
      = (none, ⟨["/data/media/b1/photo.jpg"], 1, 0⟩) ∧
    (none : Option String) ≠ some "/media/b1/photo.jpg" ∧ (1 : Nat) ≠ 0 := by
  refine ⟨?_, by decide, by decide⟩
  rfl

lemma dmAttempt_success (env : MediaEnv) (m b : String) (fs : List String)
    (p ct body : String) (status : Nat) (hp : env.urlPath = some p)
    (hf : env.fetch 0 = MediaFetch.response status ct body)
    (h403 : status ≠ 403) (hok : respOk status = true) :
    dmAttempt env m b ⟨fs, 0, 0⟩ 0
      = AttemptOutcome.done
          (some ("/media/" ++ b ++ "/" ++ finalFilename env p ct))
          ⟨if (m ++ "/" ++ b ++ "/" ++ finalFilename env p ct) ∈ fs
            then fs
            else fs ++ [m ++ "/" ++ b ++ "/" ++ finalFilename env p ct],
           1, 0⟩ := by
  unfold dmAttempt
  simp only [hp, hf]
  rw [if_neg h403, show (!respOk status) = false by rw [hok]; rfl]
  simp only [Bool.false_eq_true, if_false]
  split
  next hmem => simp [hmem]
  next hmem => simp [hmem]

/-- Claim C6 (amended): `downloadMediaFile` always performs a network
fetch, even when the derived destination file already exists; when that
fetch succeeds (2xx, not 403) and the file exists, the existing file's
path is returned and the file is not rewritten. Two successive successful
calls with the same arguments leave exactly one file on disk and both
return the same path, but the second call performs its own fetch (one
fetch per call, not zero). -/
theorem claim_C6_idempotent_with_refetch (env : MediaEnv) (m b : String)
    (p ct body : String) (status : Nat) (hp : env.urlPath = some p)
    (hf : env.fetch 0 = MediaFetch.response status ct body)
    (h403 : status ≠ 403) (hok : respOk status = true) :
    (∀ fs, (m ++ "/" ++ b ++ "/" ++ finalFilename env p ct) ∈ fs →
      downloadMediaFileDefault env m b fs
        = (some ("/media/" ++ b ++ "/" ++ finalFilename env p ct),
           ⟨fs, 1, 0⟩)) ∧
    (∀ fs, (m ++ "/" ++ b ++ "/" ++ finalFilename env p ct) ∉ fs →
      downloadMediaFileDefault env m b fs
        = (some ("/media/" ++ b ++ "/" ++ finalFilename env p ct),
           ⟨fs ++ [m ++ "/" ++ b ++ "/" ++ finalFilename env p ct], 1, 0⟩) ∧
      downloadMediaFileDefault env m b
          (fs ++ [m ++ "/" ++ b ++ "/" ++ finalFilename env p ct])
        = (some ("/media/" ++ b ++ "/" ++ finalFilename env p ct),
           ⟨fs ++ [m ++ "/" ++ b ++ "/" ++ finalFilename env p ct], 1, 0⟩)) := by
  constructor
  · intro fs hmem
    have ha := dmAttempt_success env m b fs p ct body status hp hf h403 hok
    rw [if_pos hmem] at ha
    exact dmLoop_done_step env m b DEFAULT_RETRIES ⟨fs, 0, 0⟩ ⟨fs, 1, 0⟩ 0
      DEFAULT_RETRIES _ ha
  · intro fs hmem
    constructor
    · have ha := dmAttempt_success env m b fs p ct body status hp hf h403 hok
      rw [if_neg hmem] at ha
      exact dmLoop_done_step env m b DEFAULT_RETRIES ⟨fs, 0, 0⟩ _ 0
        DEFAULT_RETRIES _ ha
    · have hmem2 : (m ++ "/" ++ b ++ "/" ++ finalFilename env p ct)
          ∈ fs ++ [m ++ "/" ++ b ++ "/" ++ finalFilename env p ct] := by
        simp
      have ha := dmAttempt_success env m b
        (fs ++ [m ++ "/" ++ b ++ "/" ++ finalFilename env p ct])
        p ct body status hp hf h403 hok
      rw [if_pos hmem2] at ha
      exact dmLoop_done_step env m b DEFAULT_RETRIES _ _ 0
        DEFAULT_RETRIES _ ha

/-- Witness for claim C6 (amended): downloading `/img/photo.jpg` for
bookmark b1 twice from an empty disk creates exactly one file and both
calls return the same path. -/
theorem claim_C6_idempotent_with_refetch_witness :
    downloadMediaFileDefault
        ⟨some "/img/photo.jpg", 0, fun _ => MediaFetch.response 200 "image/jpeg" "B"⟩
        "/data/media" "b1" []
      = (some "/media/b1/photo.jpg", ⟨["/data/media/b1/photo.jpg"], 1, 0⟩) ∧
    downloadMediaFileDefault
        ⟨some "/img/photo.jpg", 0, fun _ => MediaFetch.response 200 "image/jpeg" "B"⟩
        "/data/media" "b1" ["/data/media/b1/photo.jpg"]
      = (some "/media/b1/photo.jpg", ⟨["/data/media/b1/photo.jpg"], 1, 0⟩) := by
  have h := claim_C6_idempotent_with_refetch
    ⟨some "/img/photo.jpg", 0, fun _ => MediaFetch.response 200 "image/jpeg" "B"⟩
    "/data/media" "b1" "/img/photo.jpg" "image/jpeg" "B" 200
    rfl rfl (by decide) (by decide)
  have h2 := h.2 [] (by decide)
  exact ⟨by simpa using h2.1, by simpa using h2.2⟩

/-! ## Claim C8 -/

lemma chunkRun_all_ok (provider : String → Except Unit String) :
    ∀ chunks : List String,
      (∀ c ∈ chunks, ∃ t, provider c = Except.ok t) →
      (chunkRun provider chunks).1
        = Except.ok (chunks.filterMap (fun c =>
            match provider c with
            | Except.ok t => if jsTrim t = "" then none else some (jsTrim t)
            | Except.error _ => none)) := by
  intro chunks
  induction chunks with
  | nil => intro _; rfl
  | cons c rest ih =>
    intro h
    obtain ⟨t, ht⟩ := h c (List.mem_cons_self c rest)
    have hrest := ih (fun x hx => h x (List.mem_cons_of_mem c hx))
    simp only [chunkRun, ht, List.filterMap_cons, hrest]
    by_cases htr : jsTrim t = "" <;> simp [htr]

lemma transcribeChunked_fs (env : TransEnv) (fs : List String)
    (videoUrl : String) (chunks : List String)
    (hc : env.client = some ()) (hsize : WHISPER_MAX_BYTES < env.fileSize)
    (hsplit : env.split = Except.ok chunks) :
    (transcribeWithOpenAI env fs videoUrl).2.1
      = (fs ++ chunks).filter (fun f => f ∉ chunks) := by
  unfold transcribeWithOpenAI
  rw [hc]
  rw [if_neg (by simpa using Nat.not_le.mpr hsize)]
  rw [hsplit]
  cases hr : (chunkRun env.provider chunks).1 <;> simp [hr]

/-- Claim C8: on the chunked path (audio strictly larger than the 24 MB
working limit, split succeeded), every chunk file is absent from the
filesystem after the call on every exit path — provider success or
failure — and when every chunk submission succeeds the transcript is the
trimmed non-empty per-chunk transcripts joined in chunk order by a
blank-line separator. -/
theorem claim_C8_chunked_transcript (env : TransEnv) (fs : List String)
    (videoUrl : String) (chunks : List String)
    (hc : env.client = some ()) (hsize : WHISPER_MAX_BYTES < env.fileSize)
    (hsplit : env.split = Except.ok chunks) :
    (∀ c ∈ chunks, c ∉ (transcribeWithOpenAI env fs videoUrl).2.1) ∧
    ((∀ c ∈ chunks, ∃ t, env.provider c = Except.ok t) →
      (transcribeWithOpenAI env fs videoUrl).1
        = Except.ok ⟨String.intercalate "\n\n"
            (chunks.filterMap (fun c =>
              match env.provider c with
              | Except.ok t => if jsTrim t = "" then none else some (jsTrim t)
              | Except.error _ => none)),
            videoUrl, "openai"⟩) := by
  constructor
  · intro c hcmem hmem
    rw [transcribeChunked_fs env fs videoUrl chunks hc hsize hsplit] at hmem
    exact absurd hcmem (by simpa using (List.mem_filter.mp hmem).2)
  · intro hall
    unfold transcribeWithOpenAI
    rw [hc]
    rw [if_neg (by simpa using Nat.not_le.mpr hsize)]
    rw [hsplit]
    simp only [chunkRun_all_ok env.provider chunks hall]

/-- Witness for claim C8: three chunks whose transcripts are " foo ",
whitespace, and "bar": the result is "foo\n\nbar" and no chunk file
remains. -/
theorem claim_C8_chunked_transcript_witness :
    (transcribeWithOpenAI
        ⟨some (), Except.ok (), Except.ok 100, WHISPER_MAX_BYTES + 1,
          Except.ok "D", Except.ok ["c0", "c1", "c2"],
          fun c => if c = "c0" then Except.ok " foo "
            else if c = "c1" then Except.ok "  " else Except.ok "bar"⟩
        ["base.mp3"] "v").1
      = Except.ok ⟨"foo\n\nbar", "v", "openai"⟩ ∧
    "c0" ∉ (transcribeWithOpenAI
        ⟨some (), Except.ok (), Except.ok 100, WHISPER_MAX_BYTES + 1,
          Except.ok "D", Except.ok ["c0", "c1", "c2"],
          fun c => if c = "c0" then Except.ok " foo "
            else if c = "c1" then Except.ok "  " else Except.ok "bar"⟩
        ["base.mp3"] "v").2.1 := by
  have h := claim_C8_chunked_transcript
    ⟨some (), Except.ok (), Except.ok 100, WHISPER_MAX_BYTES + 1,
      Except.ok "D", Except.ok ["c0", "c1", "c2"],
      fun c => if c = "c0" then Except.ok " foo "
        else if c = "c1" then Except.ok "  " else Except.ok "bar"⟩
    ["base.mp3"] "v" ["c0", "c1", "c2"] rfl (by decide) rfl
  constructor
  · rw [h.2 (by intro c hc; fin_cases hc <;> exact ⟨_, rfl⟩)]
    rfl
  · exact h.1 "c0" (by decide)

/-! ## Claim C9 -/

/-- Claim C9, as stated, is false: `transcribe` runs the yt-dlp audio
extraction and the ffprobe duration probe before `transcribeWithOpenAI`
performs its null-client check, so with an unconstructible client the
audio-extraction tool and the probe ARE invoked; the run still fails with
a fatal error before any provider submission. -/
theorem claim_C9_counterexample :
    transcribe
        ⟨none, Except.ok (), Except.ok 100, 5, Except.ok "T", Except.ok [],
          fun _ => Except.ok ""⟩
        [] "v"
      = (Except.error (), [], [TransEvent.extractAudio, TransEvent.probe]) ∧
    TransEvent.extractAudio ∈ (transcribe
        ⟨none, Except.ok (), Except.ok 100, 5, Except.ok "T", Except.ok [],
          fun _ => Except.ok ""⟩
        [] "v").2.2 ∧
    TransEvent.probe ∈ (transcribe
        ⟨none, Except.ok (), Except.ok 100, 5, Except.ok "T", Except.ok [],
          fun _ => Except.ok ""⟩
        [] "v").2.2 := by
  refine ⟨rfl, by decide, by decide⟩

/-- Claim C9 (amended): when the provider client cannot be constructed,
every transcription run fails with a fatal error and performs no provider
submission; the external audio-extraction tool is nevertheless invoked
first (and the duration probe as well when extraction succeeds) — the
failure is raised by the null-client check inside `transcribeWithOpenAI`,
after the audio work. -/
theorem claim_C9_null_client_fatal (env : TransEnv) (fs : List String)
    (videoUrl : String) (h : env.client = none) :
    (∃ e, (transcribe env fs videoUrl).1 = Except.error e) ∧
    TransEvent.providerSubmit ∉ (transcribe env fs videoUrl).2.2 ∧
    TransEvent.extractAudio ∈ (transcribe env fs videoUrl).2.2 := by
  unfold transcribe
  cases hy : env.ytdlp with
  | error e => exact ⟨⟨e, rfl⟩, by simp, by simp⟩
  | ok _ =>
    cases hpr : env.probeResult with
    | error e => exact ⟨⟨e, rfl⟩, by simp, by simp⟩
    | ok d =>
      unfold transcribeWithOpenAI
      rw [h]
      exact ⟨⟨(), rfl⟩, by simp, by simp⟩

/-- Witness for claim C9 (amended): a run with no client, successful
extraction and probe: it fails, submits nothing, and extracted audio. -/
theorem claim_C9_null_client_fatal_witness :
    (∃ e, (transcribe
        ⟨none, Except.ok (), Except.ok 100, 5, Except.ok "T", Except.ok [],
          fun _ => Except.ok ""⟩ [] "v").1 = Except.error e) ∧
    TransEvent.providerSubmit ∉ (transcribe
        ⟨none, Except.ok (), Except.ok 100, 5, Except.ok "T", Except.ok [],
          fun _ => Except.ok ""⟩ [] "v").2.2 ∧
    TransEvent.extractAudio ∈ (transcribe
        ⟨none, Except.ok (), Except.ok 100, 5, Except.ok "T", Except.ok [],
          fun _ => Except.ok ""⟩ [] "v").2.2 :=
  claim_C9_null_client_fatal
    ⟨none, Except.ok (), Except.ok 100, 5, Except.ok "T", Except.ok [],
      fun _ => Except.ok ""⟩ [] "v" rfl

end XMarks
